import Mathlib

/-!
Verification of the "Overlay & Navigable List Engine" of the component
library: the Position Resolver (`GetVisiblePosition` and its fit
predicates) and the Menu Controller / Focus Navigator of the ActionMenu
component (`toggleMenu`, `selectOption`, `hoverOption`, `focusOption`,
`handleOnKeyDown`).

The embedding is shallow: rectangles and viewport sizes are records of
integers, the controller is a pure state-passing translation of the
React component's handlers, and callback invocations are recorded as an
event trace (an event is emitted exactly when the corresponding optional
callback is configured, mirroring the source's `if (cb) cb()` guards).
-/

namespace Overlay

/-- A measured rectangle, as handed to the resolver by the layout
collaborator (`DOMRect` fields used by the source). -/
structure Rect where
  top : Int
  right : Int
  bottom : Int
  left : Int
  width : Int
  height : Int
deriving DecidableEq, Repr

/-- The visible client area (`window.innerWidth` / `window.innerHeight`
as read by the source's fit predicates). -/
structure Viewport where
  width : Int
  height : Int
deriving DecidableEq, Repr

/-- Source `hasPlaceAtTop`: the anchor's top offset leaves room
for the overlay's height. -/
def hasPlaceAtTop (tooltipDomRect parentDomRect : Rect) : Bool :=
  parentDomRect.top ≥ tooltipDomRect.height

/-- Source `hasPlaceAtLeft`. -/
def hasPlaceAtLeft (tooltipDomRect parentDomRect : Rect) : Bool :=
  parentDomRect.left ≥ tooltipDomRect.width

/-- Source `hasPlaceAtBottom`; `clientHeight` is the viewport
height. -/
def hasPlaceAtBottom (tooltipDomRect parentDomRect : Rect) (viewport : Viewport) : Bool :=
  tooltipDomRect.height ≤ viewport.height - parentDomRect.bottom

/-- Source `hasPlaceAtRight`; `clientWidth` is the viewport
width. -/
def hasPlaceAtRight (tooltipDomRect parentDomRect : Rect) (viewport : Viewport) : Bool :=
  tooltipDomRect.width ≤ viewport.width - parentDomRect.right

/-- Source `isNotFittingOnTopButCanOnBottom`. -/
def isNotFittingOnTopButCanOnBottom (t p : Rect) (v : Viewport) : Bool :=
  !hasPlaceAtTop t p && hasPlaceAtBottom t p v

/-- Source `isNotFittingOnRightButCanOnLeft`. -/
def isNotFittingOnRightButCanOnLeft (t p : Rect) (v : Viewport) : Bool :=
  !hasPlaceAtRight t p v && hasPlaceAtLeft t p

/-- Source `isNotFittingOnBottomButCanOnTop`. -/
def isNotFittingOnBottomButCanOnTop (t p : Rect) (v : Viewport) : Bool :=
  !hasPlaceAtBottom t p v && hasPlaceAtTop t p

/-- Source `isNotFittingOnLeftButCanOnRight`. -/
def isNotFittingOnLeftButCanOnRight (t p : Rect) (v : Viewport) : Bool :=
  !hasPlaceAtLeft t p && hasPlaceAtRight t p v

/-- Source `GetVisiblePosition`: a `switch` on the preferred
position string, flipping to the opposite side only when the preferred
side has no room and the opposite one does, with `default: return 'top'`.
The position is kept as a string because the `switch` has a default arm
for unrecognized values. -/
def GetVisiblePosition (tooltipDomRect parentDomRect : Rect) (viewport : Viewport)
    (position : String) : String :=
  if position = "top" then
    if isNotFittingOnTopButCanOnBottom tooltipDomRect parentDomRect viewport
    then "bottom" else "top"
  else if position = "right" then
    if isNotFittingOnRightButCanOnLeft tooltipDomRect parentDomRect viewport
    then "left" else "right"
  else if position = "bottom" then
    if isNotFittingOnBottomButCanOnTop tooltipDomRect parentDomRect viewport
    then "top" else "bottom"
  else if position = "left" then
    if isNotFittingOnLeftButCanOnRight tooltipDomRect parentDomRect viewport
    then "right" else "left"
  else
    "top"

/-- Reference fit predicate, written from the spec's words:
fits-top ⇔ `anchorRect.top >= overlayRect.height`,
fits-bottom ⇔ `overlayRect.height <= viewport.height - anchorRect.bottom`,
fits-left ⇔ `anchorRect.left >= overlayRect.width`,
fits-right ⇔ `overlayRect.width <= viewport.width - anchorRect.right`. -/
def specFits (overlayRect anchorRect : Rect) (viewport : Viewport) (side : String) : Bool :=
  if side = "top" then anchorRect.top ≥ overlayRect.height
  else if side = "bottom" then overlayRect.height ≤ viewport.height - anchorRect.bottom
  else if side = "left" then anchorRect.left ≥ overlayRect.width
  else if side = "right" then overlayRect.width ≤ viewport.width - anchorRect.right
  else false

/-- The opposite of each recognized side. -/
def specOpposite (side : String) : String :=
  if side = "top" then "bottom"
  else if side = "bottom" then "top"
  else if side = "left" then "right"
  else if side = "right" then "left"
  else side

/-- Reference resolver, written from the spec's words: return the
opposite of the preferred side exactly when the preferred side does not
fit and its opposite does; otherwise return the preferred side
unchanged; any unrecognized preferred value yields `top`. -/
def specResolveSide (overlayRect anchorRect : Rect) (viewport : Viewport)
    (preferred : String) : String :=
  if preferred = "top" ∨ preferred = "right" ∨ preferred = "bottom" ∨ preferred = "left" then
    if !specFits overlayRect anchorRect viewport preferred &&
        specFits overlayRect anchorRect viewport (specOpposite preferred)
    then specOpposite preferred
    else preferred
  else "top"

end Overlay

namespace Overlay

/-- C1: the source resolver coincides with the reference definition
built from the spec's fit predicates and flip rule: for every input the
result is the opposite of the preferred side exactly when the preferred
side does not fit and its opposite does fit; otherwise the preferred
side is returned unchanged (including when neither side fits), and any
unrecognized preferred value yields `top`. -/
theorem GetVisiblePosition_eq_specResolveSide
    (t p : Rect) (v : Viewport) (position : String) :
    GetVisiblePosition t p v position = specResolveSide t p v position := by
  by_cases htop : position = "top"
  · subst htop
    simp [GetVisiblePosition, specResolveSide, specFits, specOpposite,
      isNotFittingOnTopButCanOnBottom, hasPlaceAtTop, hasPlaceAtBottom]
  · by_cases hright : position = "right"
    · subst hright
      simp [GetVisiblePosition, specResolveSide, specFits, specOpposite,
        isNotFittingOnRightButCanOnLeft, hasPlaceAtRight, hasPlaceAtLeft]
    · by_cases hbottom : position = "bottom"
      · subst hbottom
        simp [GetVisiblePosition, specResolveSide, specFits, specOpposite,
          isNotFittingOnBottomButCanOnTop, hasPlaceAtBottom, hasPlaceAtTop]
      · by_cases hleft : position = "left"
        · subst hleft
          simp [GetVisiblePosition, specResolveSide, specFits, specOpposite,
            isNotFittingOnLeftButCanOnRight, hasPlaceAtLeft, hasPlaceAtRight]
        · simp [GetVisiblePosition, specResolveSide, htop, hright, hbottom, hleft]

/-- C8: the resolver is a pure, deterministic function of exactly its
inputs — identical inputs always yield identical outputs. -/
theorem GetVisiblePosition_deterministic
    (t p : Rect) (v : Viewport) (position : String)
    (t' p' : Rect) (v' : Viewport) (position' : String)
    (ht : t = t') (hp : p = p') (hv : v = v') (hpos : position = position') :
    GetVisiblePosition t p v position = GetVisiblePosition t' p' v' position' := by
  subst ht; subst hp; subst hv; subst hpos; rfl

/-- Witness for C8 at a concrete input. -/
theorem GetVisiblePosition_deterministic_witness :
    GetVisiblePosition ⟨0, 0, 0, 0, 40, 100⟩ ⟨10, 0, 50, 0, 0, 0⟩ ⟨800, 800⟩ "top"
      = GetVisiblePosition ⟨0, 0, 0, 0, 40, 100⟩ ⟨10, 0, 50, 0, 0, 0⟩ ⟨800, 800⟩ "top" :=
  GetVisiblePosition_deterministic _ _ _ _ _ _ _ _ rfl rfl rfl rfl

end Overlay

namespace ActionMenu

/-- An option as passed to the ActionMenu component
(`Omit<Option, 'type'>`): a value used for focus comparison, a label,
and an optional disabled flag (`disabled?: boolean`). -/
structure ActionMenuOption where
  value : String
  label : String
  disabled : Option Bool
deriving DecidableEq, Repr

/-- An option of the embedded list (`OptionType`): same data plus the
`type` discriminant that the component sets to `"list"`. -/
structure OptionType where
  value : String
  label : String
  disabled : Option Bool
  type : String
deriving DecidableEq, Repr

/-- Source `actionMenuOptions`: the component maps every incoming option to a
list-typed option (`{...option, type: 'list'}`). -/
def actionMenuOptions (options : List ActionMenuOption) : List OptionType :=
  options.map fun o => ⟨o.value, o.label, o.disabled, "list"⟩

/-- Source `isOptionDisabled`: list-typed options report their
`disabled` flag defaulting to false (`option?.disabled ?? false`); any
other (or absent) option is not disabled. -/
def isOptionDisabled (option : Option OptionType) : Bool :=
  match option with
  | some o => if o.type = "list" then o.disabled.getD false else false
  | none => false

/-- The close-on-select configuration
(`closeOnSelect?: boolean | ((option) => boolean)`, source default
`true`). -/
inductive CloseOnSelect where
  | bool (b : Bool)
  | pred (f : OptionType → Bool)

/-- The source default `closeOnSelect = true`. -/
def closeOnSelectDefault : CloseOnSelect := .bool true

/-- Source `closeMenuOnSelect`: apply the function form,
otherwise return the boolean. -/
def closeMenuOnSelect (closeOnSelect : CloseOnSelect) (option : OptionType) : Bool :=
  match closeOnSelect with
  | .pred f => f option
  | .bool b => b

/-- Which of the optional callbacks are configured; an event is emitted
exactly when the corresponding callback exists, mirroring the source's
`if (cb) cb()` guards. -/
structure Callbacks where
  onMenuClose : Bool
  onMenuOpen : Bool
  onOptionSelect : Bool
deriving DecidableEq, Repr

/-- The component's configuration as far as the controller logic reads
it: the option list (before the `type: 'list'` mapping), the
close-on-select policy and the configured callbacks. -/
structure Config where
  options : List ActionMenuOption
  closeOnSelect : CloseOnSelect
  cbs : Callbacks

/-- The controller's mutable state: `showMenu` and
`currentFocusedOption`. -/
structure MenuState where
  showMenu : Bool
  currentFocusedOption : Option OptionType
deriving DecidableEq, Repr

/-- A recorded callback invocation. -/
inductive Event where
  | menuClose
  | menuOpen
  | optionSelect (option : OptionType)
deriving DecidableEq, Repr

/-- Source `toggleMenu`: set `showMenu` to the argument, then
invoke the close callback when the argument is false and the open
callback otherwise (each only when configured). -/
def toggleMenu (cfg : Config) (s : MenuState) (b : Bool) : MenuState × List Event :=
  let s' := { s with showMenu := b }
  if !b then
    (s', if cfg.cbs.onMenuClose then [Event.menuClose] else [])
  else
    (s', if cfg.cbs.onMenuOpen then [Event.menuOpen] else [])

/-- Source `selectOption`: invoke the selection callback when
configured, then close the menu when the close-on-select policy says
so. -/
def selectOption (cfg : Config) (s : MenuState) (option : OptionType) :
    MenuState × List Event :=
  let selectEvents := if cfg.cbs.onOptionSelect then [Event.optionSelect option] else []
  if closeMenuOnSelect cfg.closeOnSelect option then
    let (s', toggleEvents) := toggleMenu cfg s false
    (s', selectEvents ++ toggleEvents)
  else
    (s, selectEvents)

/-- Source `hoverOption`: unconditionally focus the given
option. -/
def hoverOption (s : MenuState) (option : OptionType) : MenuState :=
  { s with currentFocusedOption := some option }

/-- Source `FocusDirection`. -/
inductive FocusDirection where
  | first
  | last
  | up
  | down
deriving DecidableEq, Repr

/-- The enabled options the navigator moves over:
`actionMenuOptions.filter(o => !isOptionDisabled(o))`. -/
def enabledOptions (cfg : Config) : List OptionType :=
  (actionMenuOptions cfg.options).filter fun option => !isOptionDisabled (some option)

/-- Source `focusOption`: compute the enabled options; bail out
when there are none; resolve the current focused index by value equality
(`findIndex`, `-1` when absent); then move. An out-of-range array read
would yield `undefined` in the source, rendered here as `Option`. -/
def focusOption (cfg : Config) (s : MenuState) (direction : FocusDirection) : MenuState :=
  let enabled := enabledOptions cfg
  if enabled.length = 0 then s
  else
    let currentFocusedIndex : Int :=
      match s.currentFocusedOption with
      | some focused =>
          match enabled.findIdx? (fun enabledOption => enabledOption.value = focused.value) with
          | some i => (i : Int)
          | none => -1
      | none => -1
    match direction with
    | .up =>
        { s with currentFocusedOption :=
            enabled.get? (if currentFocusedIndex > 0
              then (currentFocusedIndex - 1).toNat
              else enabled.length - 1) }
    | .down =>
        { s with currentFocusedOption :=
            enabled.get? (((currentFocusedIndex + 1) % (enabled.length : Int)).toNat) }
    | .last =>
        { s with currentFocusedOption := enabled.get? (enabled.length - 1) }
    | .first =>
        { s with currentFocusedOption := enabled.get? 0 }

/-- Source `handleOnKeyDown`, as a pure transformer on the
state snapshot captured at render time: it returns the new state, the
callback trace, and whether the event was consumed
(`preventDefault`/`stopPropagation`). The `Enter` arm reads
`currentFocusedOption` and `showMenu` from the pre-call snapshot in both
of its conditions, exactly as the closure does. -/
def handleOnKeyDown (cfg : Config) (s : MenuState) (key : String) :
    MenuState × List Event × Bool :=
  if key = "Escape" then
    if s.showMenu then
      let (s', events) := toggleMenu cfg s s.showMenu
      (s', events, false)
    else (s, [], false)
  else if key = "Enter" then
    let (s1, selectEvents) :=
      match s.currentFocusedOption with
      | some focused => selectOption cfg s focused
      | none => (s, [])
    if (s.currentFocusedOption.isNone && s.showMenu) || !s.showMenu then
      let (s2, toggleEvents) := toggleMenu cfg s1 (!s.showMenu)
      (s2, selectEvents ++ toggleEvents, true)
    else
      (s1, selectEvents, true)
  else if key = " " then
    if !s.showMenu then
      let (s', events) := toggleMenu cfg s true
      (s', events, false)
    else (s, [], false)
  else if key = "ArrowUp" then
    (focusOption cfg s .up, [], true)
  else if key = "ArrowDown" then
    (focusOption cfg s .down, [], true)
  else if key = "Home" then
    (focusOption cfg s .first, [], true)
  else if key = "End" then
    (focusOption cfg s .last, [], true)
  else if key = "Tab" then
    if s.showMenu then
      let (s', events) := toggleMenu cfg s s.showMenu
      (s', events, false)
    else (s, [], false)
  else
    (s, [], false)

/-- Reference enabled subset, written from the spec's words: the ordered
subsequence of options whose `disabled` flag is not set. -/
def specEnabledSubset (options : List OptionType) : List OptionType :=
  options.filter fun option => !option.disabled.getD false

/-- Reference focus move, written from the spec's words: with `idx` the
index of the current focus within the enabled subset (or `-1` when focus
is empty or not found), `first` yields `EnabledSubset[0]`, `last` the
last enabled option, `up` yields `EnabledSubset[idx-1]` when `idx > 0`
and the last enabled option otherwise, and `down` yields
`EnabledSubset[(idx+1) mod count]`; an empty enabled subset leaves the
focus unchanged. -/
def specMoveFocus (enabled : List OptionType) (focus : Option OptionType)
    (direction : FocusDirection) : Option OptionType :=
  if enabled.length = 0 then focus
  else
    let idx : Int :=
      match focus with
      | some focused =>
          match enabled.findIdx? (fun e => e.value = focused.value) with
          | some i => (i : Int)
          | none => -1
      | none => -1
    match direction with
    | .first => enabled.get? 0
    | .last => enabled.get? (enabled.length - 1)
    | .up => enabled.get? (if idx > 0 then (idx - 1).toNat else enabled.length - 1)
    | .down => enabled.get? (((idx + 1) % (enabled.length : Int)).toNat)

/-- Every option the component hands to the list carries
`type = "list"`, so `isOptionDisabled` reduces to the `disabled` flag
and the code's enabled filter is the spec's enabled subset. -/
theorem enabledOptions_eq_spec (cfg : Config) :
    enabledOptions cfg = specEnabledSubset (actionMenuOptions cfg.options) := by
  unfold enabledOptions specEnabledSubset
  apply List.filter_congr
  intro x hx
  simp only [actionMenuOptions, List.mem_map] at hx
  obtain ⟨o, _, rfl⟩ := hx
  simp [isOptionDisabled]

/-- C2: `focusOption` implements the spec's `moveFocus` over the enabled
subset: a no-op on an empty enabled subset, `first`/`last` go to the
ends, `up` steps back with wrap-around, `down` steps forward modulo the
count (so `down` from no prior focus lands on the first enabled
option), and nothing else in the state changes. -/
theorem focusOption_eq_specMoveFocus (cfg : Config) (s : MenuState) (d : FocusDirection) :
    focusOption cfg s d =
      { s with currentFocusedOption := specMoveFocus (specEnabledSubset (actionMenuOptions cfg.options)) s.currentFocusedOption d } := by
  unfold focusOption specMoveFocus
  rw [enabledOptions_eq_spec]
  by_cases hlen : (specEnabledSubset (actionMenuOptions cfg.options)).length = 0
  · simp only [hlen, if_pos rfl, if_true]
  · simp only [hlen, if_neg hlen, if_false]
    cases d <;> rfl

/-- C3: `Escape` and `Tab` are no-ops when the menu is closed; when it
is open they call `toggle(showMenu)` — i.e. `toggle(true)` — so the open
callback fires again (when configured), the close callback never fires,
`showMenu` stays true, and the menu is never closed by either key. -/
theorem handleOnKeyDown_escape_tab (cfg : Config) (s : MenuState) :
    handleOnKeyDown cfg s "Escape" =
      (if s.showMenu
        then ({ s with showMenu := true }, if cfg.cbs.onMenuOpen then [Event.menuOpen] else [], false)
        else (s, [], false))
    ∧ handleOnKeyDown cfg s "Tab" =
      (if s.showMenu
        then ({ s with showMenu := true }, if cfg.cbs.onMenuOpen then [Event.menuOpen] else [], false)
        else (s, [], false)) := by
  constructor <;>
    · by_cases h : s.showMenu <;> simp [handleOnKeyDown, toggleMenu, h]

/-- C4: `toggleMenu` is level-triggered: it sets `showMenu` to its
argument and fires exactly the callback selected by the argument alone
(close when false, open when true), no matter the previous state; in
particular two successive `toggle(true)` calls fire the open callback
twice. -/
theorem toggleMenu_level_triggered (cfg : Config) (s : MenuState) (b : Bool)
    (hclose : cfg.cbs.onMenuClose = true) (hopen : cfg.cbs.onMenuOpen = true) :
    toggleMenu cfg s b =
      ({ s with showMenu := b }, [if b then Event.menuOpen else Event.menuClose])
    ∧ (toggleMenu cfg s true).2 ++ (toggleMenu cfg (toggleMenu cfg s true).1 true).2 =
      [Event.menuOpen, Event.menuOpen] := by
  cases b <;> simp [toggleMenu, hclose, hopen]

/-- Witness for C4 at a concrete input: toggling an already-open menu
open again still fires the open callback. -/
theorem toggleMenu_level_triggered_witness :
    toggleMenu ⟨[], CloseOnSelect.bool true, ⟨true, true, true⟩⟩ ⟨true, none⟩ true =
      (⟨true, none⟩, [Event.menuOpen]) :=
  (toggleMenu_level_triggered ⟨[], CloseOnSelect.bool true, ⟨true, true, true⟩⟩
    ⟨true, none⟩ true rfl rfl).1

/-- C6: `selectOption` always fires the selection callback with the
given option, and then calls `toggle(false)` exactly when the
close-on-select policy yields true for the option; a boolean `true`
policy (the source default) always closes, `false` never closes, and a
function policy closes exactly when it returns true on the option. -/
theorem selectOption_close_on_select (cfg : Config) (s : MenuState) (option : OptionType)
    (hsel : cfg.cbs.onOptionSelect = true) (hclose : cfg.cbs.onMenuClose = true) :
    selectOption cfg s option =
      (if closeMenuOnSelect cfg.closeOnSelect option
        then ({ s with showMenu := false }, [Event.optionSelect option, Event.menuClose])
        else (s, [Event.optionSelect option]))
    ∧ closeOnSelectDefault = CloseOnSelect.bool true
    ∧ (∀ o, closeMenuOnSelect (CloseOnSelect.bool true) o = true)
    ∧ (∀ o, closeMenuOnSelect (CloseOnSelect.bool false) o = false)
    ∧ (∀ f o, closeMenuOnSelect (CloseOnSelect.pred f) o = f o) := by
  refine ⟨?_, rfl, fun o => rfl, fun o => rfl, fun f o => rfl⟩
  by_cases h : closeMenuOnSelect cfg.closeOnSelect option <;>
    simp [selectOption, toggleMenu, hsel, hclose, h]

/-- Witness for C6 at a concrete input: under the policy
`option.value = "x"`, selecting `"y"` fires only the selection callback
and leaves the menu open. -/
theorem selectOption_close_on_select_witness :
    selectOption ⟨[], CloseOnSelect.pred (fun o => o.value == "x"), ⟨true, true, true⟩⟩
        ⟨true, none⟩ ⟨"y", "Y", none, "list"⟩ =
      (⟨true, none⟩, [Event.optionSelect ⟨"y", "Y", none, "list"⟩]) := by
  have h := (selectOption_close_on_select
    ⟨[], CloseOnSelect.pred (fun o => o.value == "x"), ⟨true, true, true⟩⟩
    ⟨true, none⟩ ⟨"y", "Y", none, "list"⟩ rfl rfl).1
  simpa using h

/-- C5: pressing `Enter` always consumes the event; the selection
callback fires for the focused option exactly when one exists; when the
menu is open with no focused option the only effect is `toggle(false)`
(the menu closes); when it is closed with no focused option the only
effect is `toggle(true)`; when it is open with a focused option no
toggle happens beyond what the close-on-select policy triggers; and
when it is closed with a focused option the selection runs and then
`toggle(true)` runs as well (the snapshot was closed). -/
theorem handleOnKeyDown_enter (cfg : Config) (s : MenuState)
    (hsel : cfg.cbs.onOptionSelect = true) (hclose : cfg.cbs.onMenuClose = true)
    (hopen : cfg.cbs.onMenuOpen = true) :
    (handleOnKeyDown cfg s "Enter").2.2 = true
    ∧ (∀ f, s.currentFocusedOption = some f →
        Event.optionSelect f ∈ (handleOnKeyDown cfg s "Enter").2.1)
    ∧ (s.currentFocusedOption = none →
        ∀ f, Event.optionSelect f ∉ (handleOnKeyDown cfg s "Enter").2.1)
    ∧ (s.currentFocusedOption = none → s.showMenu = true →
        handleOnKeyDown cfg s "Enter" = ({ s with showMenu := false }, [Event.menuClose], true))
    ∧ (s.currentFocusedOption = none → s.showMenu = false →
        handleOnKeyDown cfg s "Enter" = ({ s with showMenu := true }, [Event.menuOpen], true))
    ∧ (∀ f, s.currentFocusedOption = some f → s.showMenu = true →
        handleOnKeyDown cfg s "Enter" =
          (if closeMenuOnSelect cfg.closeOnSelect f
            then ({ s with showMenu := false }, [Event.optionSelect f, Event.menuClose], true)
            else (s, [Event.optionSelect f], true)))
    ∧ (∀ f, s.currentFocusedOption = some f → s.showMenu = false →
        handleOnKeyDown cfg s "Enter" =
          ({ s with showMenu := true },
            (Event.optionSelect f ::
              (if closeMenuOnSelect cfg.closeOnSelect f then [Event.menuClose] else [])) ++
              [Event.menuOpen],
            true)) := by
  refine ⟨?_, ?_, ?_, ?_, ?_, ?_, ?_⟩
  · cases hf : s.currentFocusedOption <;> cases hm : s.showMenu <;>
      simp [handleOnKeyDown, selectOption, toggleMenu, hf, hm]
  · intro f hf
    cases hm : s.showMenu <;>
      by_cases hp : closeMenuOnSelect cfg.closeOnSelect f <;>
        simp [handleOnKeyDown, selectOption, toggleMenu, hf, hm, hp, hsel]
  · intro hf f
    cases hm : s.showMenu <;>
      simp [handleOnKeyDown, selectOption, toggleMenu, hf, hm]
  · intro hf hm
    simp [handleOnKeyDown, selectOption, toggleMenu, hf, hm, hclose]
  · intro hf hm
    simp [handleOnKeyDown, selectOption, toggleMenu, hf, hm, hopen]
  · intro f hf hm
    by_cases hp : closeMenuOnSelect cfg.closeOnSelect f <;>
      simp [handleOnKeyDown, selectOption, toggleMenu, hf, hm, hp, hsel, hclose]
  · intro f hf hm
    by_cases hp : closeMenuOnSelect cfg.closeOnSelect f <;>
      simp [handleOnKeyDown, selectOption, toggleMenu, hf, hm, hp, hsel, hclose, hopen]

/-- Witness for C5 at a concrete input: `Enter` while open with no
focused option fires no selection callback and closes the menu. -/
theorem handleOnKeyDown_enter_witness :
    handleOnKeyDown ⟨[], CloseOnSelect.bool true, ⟨true, true, true⟩⟩ ⟨true, none⟩ "Enter" =
      (⟨false, none⟩, [Event.menuClose], true) :=
  ((handleOnKeyDown_enter ⟨[], CloseOnSelect.bool true, ⟨true, true, true⟩⟩
      ⟨true, none⟩ rfl rfl rfl).2.2.2.1) rfl rfl

/-- C9: `Enter` while closed with a focused option evaluates both of
its conditions against the pre-call snapshot: `selectOption` fires the
selection callback (and, when the policy closes, the close callback),
and then — because the snapshot was closed — `toggle(true)` runs, so the
menu ends open and the open callback fires last. -/
theorem handleOnKeyDown_enter_closed_focused (cfg : Config) (s : MenuState) (f : OptionType)
    (hsel : cfg.cbs.onOptionSelect = true) (hclose : cfg.cbs.onMenuClose = true)
    (hopen : cfg.cbs.onMenuOpen = true)
    (hm : s.showMenu = false) (hf : s.currentFocusedOption = some f) :
    handleOnKeyDown cfg s "Enter" =
      ({ s with showMenu := true },
        (Event.optionSelect f ::
          (if closeMenuOnSelect cfg.closeOnSelect f then [Event.menuClose] else [])) ++
          [Event.menuOpen],
        true) := by
  by_cases hp : closeMenuOnSelect cfg.closeOnSelect f <;>
    simp [handleOnKeyDown, selectOption, toggleMenu, hf, hm, hp, hsel, hclose, hopen]

/-- Witness for C9 at a concrete input with the default (always-close)
policy: selection callback, close callback, then the open callback
last, and the menu ends open. -/
theorem handleOnKeyDown_enter_closed_focused_witness :
    handleOnKeyDown ⟨[], CloseOnSelect.bool true, ⟨true, true, true⟩⟩
        ⟨false, some ⟨"x", "X", none, "list"⟩⟩ "Enter" =
      (⟨true, some ⟨"x", "X", none, "list"⟩⟩,
        [Event.optionSelect ⟨"x", "X", none, "list"⟩, Event.menuClose, Event.menuOpen],
        true) := by
  have h := handleOnKeyDown_enter_closed_focused
    ⟨[], CloseOnSelect.bool true, ⟨true, true, true⟩⟩
    ⟨false, some ⟨"x", "X", none, "list"⟩⟩ ⟨"x", "X", none, "list"⟩
    rfl rfl rfl rfl rfl
  simpa using h

/-- The focus invariant: a non-empty focus refers to one of the
currently enabled options. -/
def FocusInv (cfg : Config) (s : MenuState) : Prop :=
  ∀ f, s.currentFocusedOption = some f → f ∈ enabledOptions cfg

/-- C7: every focus-navigator operation preserves the invariant that a
non-empty focus is an enabled option: `focusOption` in each of the four
directions never assigns focus to a disabled option (wrap-around stays
within the enabled subset), and `hoverOption` preserves it whenever the
hovered option is enabled. -/
theorem focus_invariant_preserved (cfg : Config) (s : MenuState)
    (hinv : FocusInv cfg s) :
    (∀ d, FocusInv cfg (focusOption cfg s d))
    ∧ (∀ o, o ∈ enabledOptions cfg → FocusInv cfg (hoverOption s o)) := by
  constructor
  · intro d f hf
    simp only [focusOption] at hf
    by_cases hlen : (enabledOptions cfg).length = 0
    · rw [if_pos hlen] at hf
      exact hinv f hf
    · rw [if_neg hlen] at hf
      cases d <;> simp only at hf <;> exact List.get?_mem hf
  · intro o ho f hf
    simp only [hoverOption, Option.some.injEq] at hf
    exact hf ▸ ho

/-- Witness for C7 at a concrete input: moving down from no focus over
a list with one disabled and one enabled option, and hovering the
enabled option, both keep the focus enabled. -/
theorem focus_invariant_preserved_witness :
    FocusInv ⟨[⟨"a", "A", some true⟩, ⟨"b", "B", none⟩], CloseOnSelect.bool true,
        ⟨true, true, true⟩⟩
      (focusOption ⟨[⟨"a", "A", some true⟩, ⟨"b", "B", none⟩], CloseOnSelect.bool true,
        ⟨true, true, true⟩⟩ ⟨false, none⟩ FocusDirection.down)
    ∧ FocusInv ⟨[⟨"a", "A", some true⟩, ⟨"b", "B", none⟩], CloseOnSelect.bool true,
        ⟨true, true, true⟩⟩
      (hoverOption ⟨false, none⟩ ⟨"b", "B", none, "list"⟩) := by
  have h := focus_invariant_preserved
    ⟨[⟨"a", "A", some true⟩, ⟨"b", "B", none⟩], CloseOnSelect.bool true, ⟨true, true, true⟩⟩
    ⟨false, none⟩ (fun f hf => Option.noConfusion hf)
  exact ⟨h.1 FocusDirection.down, h.2 ⟨"b", "B", none, "list"⟩ (by decide)⟩

/-- C10: `focusOption` resolves the current position by value equality
(the first enabled option whose `value` equals the focused option's
`value`): navigation depends only on the focused option's value, so a
later duplicate behaves exactly as the first occurrence of that value,
and a focused option whose value matches no enabled option navigates
exactly as an empty focus (`idx = -1`). -/
theorem focusOption_resolves_by_value (cfg : Config) (s : MenuState) (d : FocusDirection)
    (f f' : OptionType) (hne : (enabledOptions cfg).length ≠ 0)
    (hf : s.currentFocusedOption = some f) :
    (f'.value = f.value →
      (focusOption cfg { s with currentFocusedOption := some f' } d).currentFocusedOption
        = (focusOption cfg s d).currentFocusedOption)
    ∧ ((∀ e ∈ enabledOptions cfg, e.value ≠ f.value) →
      (focusOption cfg s d).currentFocusedOption
        = (focusOption cfg { s with currentFocusedOption := none } d).currentFocusedOption) := by
  constructor
  · intro hval
    cases d <;> simp only [focusOption, if_neg hne, hf, hval]
  · intro hmiss
    have hnone : (enabledOptions cfg).findIdx?
        (fun e => e.value = f.value) = none := by
      rw [List.findIdx?_eq_none_iff]
      intro x hx
      simpa using hmiss x hx
    cases d <;> simp only [focusOption, if_neg hne, hf, hnone]

/-- Witness for C10 at a concrete input: with two enabled options that
share the value `"a"`, moving down from the later duplicate lands where
moving down from the first occurrence does. -/
theorem focusOption_resolves_by_value_witness :
    (focusOption ⟨[⟨"a", "A", none⟩, ⟨"a", "A2", none⟩, ⟨"b", "B", none⟩],
        CloseOnSelect.bool true, ⟨true, true, true⟩⟩
      ⟨true, some ⟨"a", "A", none, "list"⟩⟩ FocusDirection.down).currentFocusedOption
    = (focusOption ⟨[⟨"a", "A", none⟩, ⟨"a", "A2", none⟩, ⟨"b", "B", none⟩],
        CloseOnSelect.bool true, ⟨true, true, true⟩⟩
      ⟨true, some ⟨"a", "A2", none, "list"⟩⟩ FocusDirection.down).currentFocusedOption :=
  (focusOption_resolves_by_value
    ⟨[⟨"a", "A", none⟩, ⟨"a", "A2", none⟩, ⟨"b", "B", none⟩],
      CloseOnSelect.bool true, ⟨true, true, true⟩⟩
    ⟨true, some ⟨"a", "A2", none, "list"⟩⟩ FocusDirection.down
    ⟨"a", "A2", none, "list"⟩ ⟨"a", "A", none, "list"⟩ (by decide) rfl).1 rfl

end ActionMenu
